import Mathlib

/-!
# video-proxy: the resolution-and-cache subsystem of `server.js`

A shallow embedding of `getDirectLink` and of the `/api/video` handler.

* The browser is an external capability.  One resolution attempt is described by an
  `Attempt`: for every awaited driver call whether it resolves or rejects and how long it
  takes, and the `request` events the page emits, stamped in milliseconds since the start
  of the attempt and listed in the order in which the event loop delivers them.  The
  events that are delivered in one turn of the event loop carry one stamp, events of
  different turns different stamps.  An event stamped `t` is delivered before the
  continuation of a driver call that settles at `T` runs, and before a timer due at `T`
  fires, exactly when `t < T`.
* Resolving a promise only queues the continuation of the `await` on it: the continuation
  runs when the current turn is over, after the listener has seen the other events of
  that turn.
* JavaScript runs the code between two `await`s without interruption.  The handler is
  therefore split in the part that runs when the request arrives (`arrive`) and the
  continuation after `await getDirectLink(videoId)` (`resume`); `handler` is one request
  run from start to end, `runEvents` an arbitrary interleaving of several requests.
* `Date.now()` values are integers (milliseconds); the division of the age check is
  carried out in `ℚ`.
* `req.query.id` is `undefined` or a string.
-/

namespace VideoProxy

/-! ## Configuration -/

/-- The constant `DOMAIN_EMBED`. -/
def DOMAIN_EMBED : String := "short.icu"

/-- The constant `CACHE_DURATION_HOURS`. -/
def CACHE_DURATION_HOURS : ℚ := 2

/-- The delay of the `setTimeout` that `getDirectLink` races against, in milliseconds. -/
def RACE_TIMEOUT_MS : Nat := 20000

/-- The body of the 400 answer. -/
def MSG_ID_REQUIRED : String := "Parâmetro \"id\" do vídeo é obrigatório."

/-- The body of the 404 answer. -/
def MSG_NOT_FOUND : String := "Não foi possível encontrar o link de streaming (.m3u8)."

/-! ## JavaScript values -/

/-- Truthiness of a value that is `undefined`/`null` (`none`) or a string: only the
non-empty strings are truthy. -/
def truthy : Option String → Bool
  | none => false
  | some s => decide (s ≠ "")

/-- The test `request.url().endsWith('.m3u8')`.  The suffix is ASCII, so comparing
characters agrees with the comparison of UTF-16 code units that JavaScript makes. -/
def endsWithM3u8 (url : String) : Bool :=
  ".m3u8".toList.isSuffixOf url.toList

/-! ## The browser session driver, as seen by `getDirectLink` -/

/-- A `request` event of the page. -/
structure PageRequest where
  /-- Milliseconds since the start of the attempt. -/
  time : Nat
  /-- The value of `request.url()`. -/
  url : String
  deriving DecidableEq

/-- What the environment does during one call of `getDirectLink`. -/
structure Attempt where
  /-- `puppeteer.launch` resolves. -/
  launchOk : Bool
  launchMs : Nat
  /-- `browser.newPage` resolves. -/
  newPageOk : Bool
  newPageMs : Nat
  /-- `page.setUserAgent` resolves. -/
  setUserAgentOk : Bool
  setUserAgentMs : Nat
  /-- `page.goto` resolves. -/
  gotoOk : Bool
  gotoMs : Nat
  /-- `page.evaluate` (the simulated click) resolves. -/
  evaluateOk : Bool
  evaluateMs : Nat
  /-- `browser.close` resolves. -/
  closeOk : Bool
  /-- The `request` events of the page, in delivery order. -/
  requests : List PageRequest

/-- The calls `getDirectLink` makes on the driver. -/
inductive Call
  | launch
  | newPage
  | setUserAgent
  | onRequest
  | goto (url : String)
  | evaluate
  | close
  deriving DecidableEq

/-- How a call of `getDirectLink` ends: its promise is fulfilled with a value
(`null` is `none`) or rejected. -/
inductive Outcome
  | returned (value : Option String)
  | raised
  deriving DecidableEq

/-- The result of running `getDirectLink`: how it ended and the driver calls it made,
in order. -/
structure Run where
  outcome : Outcome
  calls : List Call
  deriving DecidableEq

/-- The two pieces of state the `request` listener writes: the variable `foundUrl` and
the value `linkPromise` has been resolved with (`none` while it is pending). -/
structure Observer where
  foundUrl : Option String
  linkPromise : Option String
  deriving DecidableEq

/-- The listener registered with `page.on('request', ...)`: a matching request is written
to `foundUrl` every time; `resolve(foundUrl)` settles `linkPromise` the first time only. -/
def onRequest (s : Observer) (url : String) : Observer :=
  if endsWithM3u8 url then
    { foundUrl := some url
      linkPromise := match s.linkPromise with
        | none => some url
        | some v => some v }
  else s

/-- The listener run on the events delivered from `lo` (included) to `hi` (excluded). -/
def observeDuring (lo hi : Nat) (s : Observer) (requests : List PageRequest) : Observer :=
  (requests.filter (fun r => decide (lo ≤ r.time) && decide (r.time < hi))).foldl
    (fun st r => onRequest st r.url) s

/-- Waiting on a pending `linkPromise` against the timer due at `deadline`: the events are
delivered one by one.  When the listener resolves the promise, the continuation
`return foundUrl` is queued; it runs at the end of the turn, so the listener first sees
the events that follow with the same stamp.  When the timer fires first, the continuation
runs with `foundUrl` as it is. -/
def awaitLink (deadline : Nat) (s : Observer) : List PageRequest → Option String
  | [] => s.foundUrl
  | r :: rest =>
    if deadline ≤ r.time then s.foundUrl
    else
      let s1 := onRequest s r.url
      if s1.linkPromise.isSome then
        ((rest.takeWhile (fun x => x.time == r.time)).foldl
          (fun st x => onRequest st x.url) s1).foundUrl
      else awaitLink deadline s1 rest

/-- The statement `await Promise.race([linkPromise, timeout]); return foundUrl` entered at
time `start`: with a promise that is already resolved the continuation runs before any
further event is delivered. -/
def raceAndReturn (start : Nat) (s : Observer) (requests : List PageRequest) : Option String :=
  if s.linkPromise.isSome then s.foundUrl
  else awaitLink (start + RACE_TIMEOUT_MS) s (requests.filter (fun r => decide (start ≤ r.time)))

/-- The `finally` block when `browser` is set: `await browser.close()`.  A rejection of
`close` replaces the completion of the `try`/`catch` part. -/
def closeBrowser (a : Attempt) (o : Outcome) (calls : List Call) : Run :=
  { outcome := if a.closeOk then o else Outcome.raised
    calls := calls ++ [Call.close] }

/-- The function `getDirectLink(videoId)`. -/
def getDirectLink (videoId : String) (a : Attempt) : Run :=
  let embedUrl := "https://" ++ DOMAIN_EMBED ++ "/" ++ videoId
  if !a.launchOk then
    -- `catch` returns null; `browser` is still null, nothing is closed
    { outcome := Outcome.returned none, calls := [Call.launch] }
  else if !a.newPageOk then
    closeBrowser a (Outcome.returned none) [Call.launch, Call.newPage]
  else if !a.setUserAgentOk then
    closeBrowser a (Outcome.returned none) [Call.launch, Call.newPage, Call.setUserAgent]
  else
    let tPage := a.launchMs + a.newPageMs + a.setUserAgentMs
    let tGoto := tPage + a.gotoMs
    let s0 : Observer := { foundUrl := none, linkPromise := none }
    let s1 := observeDuring tPage tGoto s0 a.requests
    if !a.gotoOk then
      closeBrowser a (Outcome.returned none)
        [Call.launch, Call.newPage, Call.setUserAgent, Call.onRequest, Call.goto embedUrl]
    else
      -- a rejection of `page.evaluate` is swallowed by its `.catch`
      let tRace := tGoto + a.evaluateMs
      let s2 := observeDuring tGoto tRace s1 a.requests
      closeBrowser a (Outcome.returned (raceAndReturn tRace s2 a.requests))
        [Call.launch, Call.newPage, Call.setUserAgent, Call.onRequest, Call.goto embedUrl,
          Call.evaluate]

/-! ## The cache `linkCache` -/

/-- A value of the map: `{ url, timestamp }`. -/
structure CacheEntry where
  url : String
  timestamp : Int
  deriving DecidableEq

/-- The map `linkCache`, as its entries in insertion order. -/
abbrev LinkCache := List (String × CacheEntry)

/-- The call `linkCache.get(key)`. -/
def LinkCache.get : LinkCache → String → Option CacheEntry
  | [], _ => none
  | (k, v) :: rest, key => if k = key then some v else LinkCache.get rest key

/-- The call `linkCache.has(key)`. -/
def LinkCache.has (c : LinkCache) (key : String) : Bool :=
  (LinkCache.get c key).isSome

/-- The call `linkCache.set(key, value)`: the value of an existing key is replaced in
place, a new key is appended. -/
def LinkCache.set : LinkCache → String → CacheEntry → LinkCache
  | [], key, value => [(key, value)]
  | (k, v) :: rest, key, value =>
    if k = key then (key, value) :: rest else (k, v) :: LinkCache.set rest key value

/-! ## The handler of `GET /api/video` -/

/-- The field `source` of a success body. -/
inductive Source
  | cache
  | live
  deriving DecidableEq

/-- A JSON body: `{ error }` or `{ success: true, url, source }`. -/
inductive Body
  | error (message : String)
  | success (url : String) (source : Source)
  deriving DecidableEq

/-- An HTTP answer. -/
structure Response where
  status : Nat
  body : Body
  deriving DecidableEq

/-- What the handler does to the cache and to the resolver, in order. -/
inductive Effect
  | cacheHas (key : String)
  | cacheGet (key : String)
  | cacheSet (key : String) (entry : CacheEntry)
  | getDirectLink (videoId : String)
  | driver (call : Call)
  deriving DecidableEq

/-- The expression `(Date.now() - cachedData.timestamp) / (1000 * 60 * 60)`. -/
def ageInHours (now timestamp : Int) : ℚ :=
  ((now - timestamp : Int) : ℚ) / (1000 * 60 * 60)

/-- The handler up to its `await`: it has answered, or it waits for `getDirectLink`. -/
inductive Arrival
  | responded (response : Response) (effects : List Effect)
  | awaiting (videoId : String) (effects : List Effect)
  deriving DecidableEq

/-- The handler from the arrival of the request to the call of `getDirectLink`
(lines 81 to 99); `now` is the value of `Date.now()` in the age check. -/
def arrive (id : Option String) (cache : LinkCache) (now : Int) : Arrival :=
  match id with
  | none => Arrival.responded { status := 400, body := Body.error MSG_ID_REQUIRED } []
  | some videoId =>
    if !truthy (some videoId) then
      Arrival.responded { status := 400, body := Body.error MSG_ID_REQUIRED } []
    else if LinkCache.has cache videoId then
      match LinkCache.get cache videoId with
      | some cachedData =>
        if ageInHours now cachedData.timestamp < CACHE_DURATION_HOURS then
          Arrival.responded
            { status := 200, body := Body.success cachedData.url Source.cache }
            [Effect.cacheHas videoId, Effect.cacheGet videoId]
        else
          Arrival.awaiting videoId [Effect.cacheHas videoId, Effect.cacheGet videoId]
      | none =>
        -- not reached: `has` is true
        Arrival.awaiting videoId [Effect.cacheHas videoId, Effect.cacheGet videoId]
    else
      Arrival.awaiting videoId [Effect.cacheHas videoId]

/-- What a request has done when it is over: the answer sent (`none`: the handler was
rejected before it answered), the cache it leaves and its effects. -/
structure Handled where
  response : Option Response
  cache : LinkCache
  effects : List Effect
  deriving DecidableEq

/-- The handler after `await getDirectLink(videoId)` (lines 99 to 107); `now` is the value
of `Date.now()` in the stored entry. -/
def resume (videoId : String) (directLink : Outcome) (cache : LinkCache) (now : Int) :
    Handled :=
  match directLink with
  | Outcome.raised => { response := none, cache := cache, effects := [] }
  | Outcome.returned none =>
    { response := some { status := 404, body := Body.error MSG_NOT_FOUND }
      cache := cache, effects := [] }
  | Outcome.returned (some url) =>
    if truthy (some url) then
      { response := some { status := 200, body := Body.success url Source.live }
        cache := LinkCache.set cache videoId { url := url, timestamp := now }
        effects := [Effect.cacheSet videoId { url := url, timestamp := now }] }
    else
      { response := some { status := 404, body := Body.error MSG_NOT_FOUND }
        cache := cache, effects := [] }

/-- One request handled from start to end with nothing in between. -/
def handler (id : Option String) (cache : LinkCache) (nowCheck : Int) (a : Attempt)
    (nowStore : Int) : Handled :=
  match arrive id cache nowCheck with
  | Arrival.responded r effects => { response := some r, cache := cache, effects := effects }
  | Arrival.awaiting videoId effects =>
    let run := getDirectLink videoId a
    let h := resume videoId run.outcome cache nowStore
    { response := h.response
      cache := h.cache
      effects := effects ++ [Effect.getDirectLink videoId] ++ run.calls.map Effect.driver
        ++ h.effects }

/-- The steps of the event loop that touch the handler: a request arrives, or the
`getDirectLink` call of an earlier request is over and its handler goes on. -/
inductive Event
  | arrive (id : Option String) (now : Int)
  | resume (videoId : String) (a : Attempt) (now : Int)

/-- The cache after one step of the event loop. -/
def stepCache (cache : LinkCache) : Event → LinkCache
  | Event.arrive _ _ => cache
  | Event.resume videoId a now =>
    (resume videoId (getDirectLink videoId a).outcome cache now).cache

/-- The cache after a sequence of steps. -/
def runEvents (cache : LinkCache) (events : List Event) : LinkCache :=
  events.foldl stepCache cache

/-- The step stores a URL for `videoId`: it is the continuation of a request for
`videoId` whose `getDirectLink` returned a truthy value. -/
def Event.storesFor (videoId : String) : Event → Bool
  | Event.arrive _ _ => false
  | Event.resume v a _ =>
    decide (v = videoId) &&
      (match (getDirectLink v a).outcome with
        | Outcome.returned (some url) => truthy (some url)
        | _ => false)

/-! ## Vocabulary of the statements -/

/-- The time at which the `request` listener is registered: `launch`, `newPage` and
`setUserAgent` have resolved. -/
def Attempt.observerAt (a : Attempt) : Nat :=
  a.launchMs + a.newPageMs + a.setUserAgentMs

/-- The time at which `Promise.race` is entered and its timer started: `page.goto` and
`page.evaluate` have settled. -/
def Attempt.raceAt (a : Attempt) : Nat :=
  a.launchMs + a.newPageMs + a.setUserAgentMs + a.gotoMs + a.evaluateMs

/-- The requests the listener sees: those emitted once it is registered. -/
def Attempt.observed (a : Attempt) : List PageRequest :=
  a.requests.filter (fun r => decide (a.observerAt ≤ r.time))

/-- The first request of a sequence whose URL ends in `.m3u8`. -/
def firstManifest (rs : List PageRequest) : Option PageRequest :=
  rs.find? (fun r => endsWithM3u8 r.url)

/-- The events are stamped in the order of their delivery. -/
def InOrder (rs : List PageRequest) : Prop :=
  rs.Pairwise (fun x y => x.time ≤ y.time)

instance (rs : List PageRequest) : Decidable (InOrder rs) := by
  unfold InOrder
  infer_instance

/-- The listener state when `Promise.race` is entered: the events delivered during
`page.goto` and then during `page.evaluate` have been seen. -/
def preRace (a : Attempt) : Observer :=
  observeDuring (a.observerAt + a.gotoMs) a.raceAt
    (observeDuring a.observerAt (a.observerAt + a.gotoMs)
      { foundUrl := none, linkPromise := none } a.requests)
    a.requests

/-- An attempt in which every driver call resolves: the listener is registered at 910 ms,
navigation settles at 3910 ms, the race starts at 4000 ms and its timer is due at
24000 ms. -/
def smoothAttempt (requests : List PageRequest) : Attempt :=
  { launchOk := true, launchMs := 800
    newPageOk := true, newPageMs := 100
    setUserAgentOk := true, setUserAgentMs := 10
    gotoOk := true, gotoMs := 3000
    evaluateOk := true, evaluateMs := 90
    closeOk := true
    requests := requests }

/-- Two manifest requests fired during page navigation: the master playlist, then a
variant playlist. -/
def twoManifests : List PageRequest :=
  [{ time := 1500, url := "https://cdn.example/abc123/master.m3u8" },
   { time := 2500, url := "https://cdn.example/abc123/720p.m3u8" }]

/-- Page traffic without a manifest request. -/
def noManifest : List PageRequest :=
  [{ time := 1200, url := "https://short.icu/deadlink" },
   { time := 1900, url := "https://short.icu/assets/player.js" }]

/-- A manifest request that is emitted when the timer of the race (due at 24000 ms) has
fired and the session is being closed. -/
def lateManifest : List PageRequest :=
  [{ time := 1200, url := "https://short.icu/abc123" },
   { time := 24000, url := "https://cdn.example/abc123/master.m3u8" }]

/-- Navigation that settles after 25 s; the only manifest request is emitted 22 s after
the start of the attempt. -/
def slowNavigation : Attempt :=
  { smoothAttempt [{ time := 22000, url := "https://cdn.example/abc123/master.m3u8" }] with
    gotoMs := 25000 }

/-- Page traffic with one manifest request, emitted while the race is pending. -/
def oneManifest : List PageRequest :=
  [{ time := 1200, url := "https://short.icu/abc123" },
   { time := 9000, url := "https://cdn.example/abc123/master.m3u8" }]

/-- A cache that holds one entry, stored for `abc123` at time 1000. -/
def seededCache : LinkCache :=
  [("abc123", { url := "https://cdn.example/abc123/master.m3u8", timestamp := 1000 })]

/-- Page traffic with two manifest requests, emitted in two turns while the race is
pending. -/
def manifestsDuringRace : List PageRequest :=
  [{ time := 1200, url := "https://short.icu/abc123" },
   { time := 9000, url := "https://cdn.example/abc123/master.m3u8" },
   { time := 9400, url := "https://cdn.example/abc123/720p.m3u8" }]

/-- Page traffic with two manifest requests that are delivered in one turn while the race
is pending. -/
def manifestsInOneTurn : List PageRequest :=
  [{ time := 1200, url := "https://short.icu/abc123" },
   { time := 9000, url := "https://cdn.example/abc123/master.m3u8" },
   { time := 9000, url := "https://cdn.example/abc123/720p.m3u8" }]

/-! ## The age check and the map -/

theorem ageInHours_lt_iff (now timestamp : Int) :
    ageInHours now timestamp < CACHE_DURATION_HOURS ↔ now - timestamp < 7200000 := by
  unfold ageInHours CACHE_DURATION_HOURS
  rw [div_lt_iff₀ (by norm_num)]
  constructor
  · intro h
    have h2 : ((now - timestamp : Int) : ℚ) < ((7200000 : Int) : ℚ) := by
      push_cast at h ⊢
      linarith
    exact_mod_cast h2
  · intro h
    have h2 : ((now - timestamp : Int) : ℚ) < ((7200000 : Int) : ℚ) := by
      exact_mod_cast h
    push_cast at h2 ⊢
    linarith

theorem get_set_self (c : LinkCache) (key : String) (value : CacheEntry) :
    LinkCache.get (LinkCache.set c key value) key = some value := by
  induction c with
  | nil => simp [LinkCache.set, LinkCache.get]
  | cons p rest ih =>
    obtain ⟨k, v⟩ := p
    by_cases hk : k = key
    · simp [LinkCache.set, LinkCache.get, hk]
    · simp [LinkCache.set, LinkCache.get, hk, ih]

theorem get_set_other (c : LinkCache) (key other : String) (value : CacheEntry)
    (h : other ≠ key) :
    LinkCache.get (LinkCache.set c key value) other = LinkCache.get c other := by
  induction c with
  | nil =>
    have h2 : ¬ key = other := fun e => h e.symm
    simp [LinkCache.set, LinkCache.get, h2]
  | cons p rest ih =>
    obtain ⟨k, v⟩ := p
    by_cases hk : k = key
    · have h2 : ¬ key = other := fun e => h e.symm
      simp [LinkCache.set, LinkCache.get, hk, h2]
    · by_cases ho : k = other
      · subst ho
        simp [LinkCache.set, LinkCache.get, hk]
      · simp [LinkCache.set, LinkCache.get, hk, ho, ih]

/-! ## The handler before its `await` -/

theorem arrive_none (cache : LinkCache) (now : Int) :
    arrive none cache now =
      Arrival.responded { status := 400, body := Body.error MSG_ID_REQUIRED } [] := rfl

theorem arrive_empty (cache : LinkCache) (now : Int) :
    arrive (some "") cache now =
      Arrival.responded { status := 400, body := Body.error MSG_ID_REQUIRED } [] := by
  simp [arrive, truthy]

theorem arrive_absent (videoId : String) (hid : videoId ≠ "") (cache : LinkCache) (now : Int)
    (h : LinkCache.get cache videoId = none) :
    arrive (some videoId) cache now = Arrival.awaiting videoId [Effect.cacheHas videoId] := by
  simp [arrive, truthy, hid, LinkCache.has, h]

theorem arrive_fresh (videoId : String) (hid : videoId ≠ "") (cache : LinkCache) (now : Int)
    (e : CacheEntry) (h : LinkCache.get cache videoId = some e)
    (hage : now - e.timestamp < 7200000) :
    arrive (some videoId) cache now =
      Arrival.responded { status := 200, body := Body.success e.url Source.cache }
        [Effect.cacheHas videoId, Effect.cacheGet videoId] := by
  have hlt := (ageInHours_lt_iff now e.timestamp).mpr hage
  simp [arrive, truthy, hid, LinkCache.has, h, hlt]

theorem arrive_stale (videoId : String) (hid : videoId ≠ "") (cache : LinkCache) (now : Int)
    (e : CacheEntry) (h : LinkCache.get cache videoId = some e)
    (hage : ¬ now - e.timestamp < 7200000) :
    arrive (some videoId) cache now =
      Arrival.awaiting videoId [Effect.cacheHas videoId, Effect.cacheGet videoId] := by
  have hlt : ¬ ageInHours now e.timestamp < CACHE_DURATION_HOURS :=
    fun c => hage ((ageInHours_lt_iff now e.timestamp).mp c)
  simp [arrive, truthy, hid, LinkCache.has, h, hlt]

/-! ## The listener -/

theorem onRequest_linked (s : Observer) (url : String)
    (h : s.linkPromise = none ↔ s.foundUrl = none) :
    (onRequest s url).linkPromise = none ↔ (onRequest s url).foundUrl = none := by
  unfold onRequest
  split
  · cases hp : s.linkPromise <;> simp
  · exact h

theorem foldl_onRequest_linked (rs : List PageRequest) (s : Observer)
    (h : s.linkPromise = none ↔ s.foundUrl = none) :
    (rs.foldl (fun st r => onRequest st r.url) s).linkPromise = none ↔
      (rs.foldl (fun st r => onRequest st r.url) s).foundUrl = none := by
  induction rs generalizing s with
  | nil => simpa using h
  | cons r rest ih =>
    simp only [List.foldl_cons]
    exact ih _ (onRequest_linked s r.url h)

theorem foldl_onRequest_found (rs : List PageRequest) (s : Observer) (u : String)
    (h : (rs.foldl (fun st r => onRequest st r.url) s).foundUrl = some u) :
    s.foundUrl = some u ∨ ∃ r ∈ rs, r.url = u ∧ endsWithM3u8 r.url = true := by
  induction rs generalizing s with
  | nil => left; simpa using h
  | cons r rest ih =>
    simp only [List.foldl_cons] at h
    rcases ih _ h with h1 | ⟨x, hx, hxu, hxm⟩
    · by_cases hm : endsWithM3u8 r.url = true
      · right
        refine ⟨r, List.mem_cons_self _ _, ?_, hm⟩
        simp only [onRequest, hm, if_true] at h1
        exact Option.some.inj h1
      · left
        simp only [onRequest, hm] at h1
        simpa using h1
    · right
      exact ⟨x, List.mem_cons_of_mem _ hx, hxu, hxm⟩

/-! ## The race -/

theorem foldl_onRequest_same (rs : List PageRequest) (s : Observer) (u : String)
    (hs : s.foundUrl = some u) (h : ∀ r ∈ rs, endsWithM3u8 r.url = true → r.url = u) :
    (rs.foldl (fun st r => onRequest st r.url) s).foundUrl = some u := by
  induction rs generalizing s with
  | nil => simpa using hs
  | cons r rest ih =>
    simp only [List.foldl_cons]
    apply ih
    · cases hm : endsWithM3u8 r.url
      · simpa [onRequest, hm] using hs
      · have hru : r.url = u := h r (List.mem_cons_self _ _) hm
        simp only [onRequest, hm, if_true]
        rw [hru]
    · exact fun x hx => h x (List.mem_cons_of_mem _ hx)

theorem awaitLink_found (deadline : Nat) (rs : List PageRequest) (s : Observer) (u : String)
    (hs : s.foundUrl = none) (hp : s.linkPromise = none)
    (h : awaitLink deadline s rs = some u) :
    ∃ r ∈ rs, r.url = u ∧ endsWithM3u8 r.url = true ∧ r.time < deadline := by
  induction rs with
  | nil => simp [awaitLink, hs] at h
  | cons r rest ih =>
    unfold awaitLink at h
    by_cases hd : deadline ≤ r.time
    · simp [hd, hs] at h
    · simp only [hd, if_false] at h
      have hlt : r.time < deadline := Nat.lt_of_not_le hd
      cases hm : endsWithM3u8 r.url
      · have hsame : onRequest s r.url = s := by simp [onRequest, hm]
        rw [hsame] at h
        simp only [hp, Option.isSome_none] at h
        obtain ⟨x, hx, hrest⟩ := ih h
        exact ⟨x, List.mem_cons_of_mem _ hx, hrest⟩
      · have hs1 : onRequest s r.url = { foundUrl := some r.url, linkPromise := some r.url } := by
          simp [onRequest, hm, hp]
        rw [hs1] at h
        simp only [Option.isSome_some, if_true] at h
        rcases foldl_onRequest_found _ _ u h with h1 | ⟨x, hx, hxu, hxm⟩
        · exact ⟨r, List.mem_cons_self _ _, Option.some.inj h1, hm, hlt⟩
        · have hxt : x.time = r.time := by
            have := List.mem_takeWhile_imp hx
            simpa using this
          exact ⟨x, List.mem_cons_of_mem _ (List.takeWhile_subset _ hx), hxu, hxm,
            by omega⟩

theorem awaitLink_first (deadline : Nat) (rs : List PageRequest) (s : Observer)
    (r : PageRequest) (hp : s.linkPromise = none) (hord : InOrder rs)
    (hfirst : firstManifest rs = some r) (ht : r.time < deadline)
    (hturn : ∀ x ∈ rs, endsWithM3u8 x.url = true → x.time = r.time → x.url = r.url) :
    awaitLink deadline s rs = some r.url := by
  induction rs with
  | nil => simp [firstManifest] at hfirst
  | cons x rest ih =>
    unfold InOrder at hord
    rw [List.pairwise_cons] at hord
    unfold firstManifest at hfirst
    rw [List.find?_cons] at hfirst
    unfold awaitLink
    by_cases hm : endsWithM3u8 x.url = true
    · simp only [hm] at hfirst
      have hx : x = r := Option.some.inj hfirst
      subst hx
      have hd : ¬ deadline ≤ x.time := Nat.not_le_of_lt ht
      have hs1 : onRequest s x.url = { foundUrl := some x.url, linkPromise := some x.url } := by
        simp [onRequest, hm, hp]
      simp only [hd, if_false, hs1, Option.isSome_some, if_true]
      apply foldl_onRequest_same _ _ _ rfl
      intro y hy hym
      have hyt : y.time = x.time := by
        have := List.mem_takeWhile_imp hy
        simpa using this
      exact hturn y (List.mem_cons_of_mem _ (List.takeWhile_subset _ hy)) hym hyt
    · have hmf : endsWithM3u8 x.url = false := by simpa using hm
      simp only [hmf] at hfirst
      have hmem : r ∈ rest := List.mem_of_find?_eq_some hfirst
      have hxt : x.time ≤ r.time := hord.1 r hmem
      have hd : ¬ deadline ≤ x.time := by omega
      have hsame : onRequest s x.url = s := by simp [onRequest, hmf]
      simp only [hd, if_false, hsame, hp, Option.isSome_none]
      exact ih hord.2 hfirst (fun y hy => hturn y (List.mem_cons_of_mem _ hy))

/-! ## `getDirectLink` -/

theorem getDirectLink_launch_failed (videoId : String) (a : Attempt)
    (h : a.launchOk = false) :
    getDirectLink videoId a = { outcome := Outcome.returned none, calls := [Call.launch] } := by
  simp [getDirectLink, h]

theorem getDirectLink_all_resolved (videoId : String) (a : Attempt)
    (h1 : a.launchOk = true) (h2 : a.newPageOk = true) (h3 : a.setUserAgentOk = true)
    (h4 : a.gotoOk = true) :
    getDirectLink videoId a =
      closeBrowser a (Outcome.returned (raceAndReturn a.raceAt (preRace a) a.requests))
        [Call.launch, Call.newPage, Call.setUserAgent, Call.onRequest,
          Call.goto ("https://" ++ DOMAIN_EMBED ++ "/" ++ videoId), Call.evaluate] := by
  simp [getDirectLink, h1, h2, h3, h4, preRace, Attempt.raceAt, Attempt.observerAt]

theorem getDirectLink_newPage_failed (videoId : String) (a : Attempt)
    (h1 : a.launchOk = true) (h2 : a.newPageOk = false) :
    getDirectLink videoId a =
      closeBrowser a (Outcome.returned none) [Call.launch, Call.newPage] := by
  simp [getDirectLink, h1, h2]

theorem getDirectLink_setUserAgent_failed (videoId : String) (a : Attempt)
    (h1 : a.launchOk = true) (h2 : a.newPageOk = true) (h3 : a.setUserAgentOk = false) :
    getDirectLink videoId a =
      closeBrowser a (Outcome.returned none)
        [Call.launch, Call.newPage, Call.setUserAgent] := by
  simp [getDirectLink, h1, h2, h3]

theorem getDirectLink_goto_failed (videoId : String) (a : Attempt)
    (h1 : a.launchOk = true) (h2 : a.newPageOk = true) (h3 : a.setUserAgentOk = true)
    (h4 : a.gotoOk = false) :
    getDirectLink videoId a =
      closeBrowser a (Outcome.returned none)
        [Call.launch, Call.newPage, Call.setUserAgent, Call.onRequest,
          Call.goto ("https://" ++ DOMAIN_EMBED ++ "/" ++ videoId)] := by
  simp [getDirectLink, h1, h2, h3, h4]

theorem getDirectLink_cases (videoId : String) (a : Attempt) :
    (a.launchOk = false ∧
      getDirectLink videoId a = { outcome := Outcome.returned none, calls := [Call.launch] }) ∨
    (a.launchOk = true ∧
      (a.newPageOk = false ∨ a.setUserAgentOk = false ∨ a.gotoOk = false) ∧
      ∃ calls, getDirectLink videoId a = closeBrowser a (Outcome.returned none) calls ∧
        Call.close ∉ calls) ∨
    (a.launchOk = true ∧ a.newPageOk = true ∧ a.setUserAgentOk = true ∧ a.gotoOk = true) := by
  cases h1 : a.launchOk
  · left; exact ⟨rfl, getDirectLink_launch_failed videoId a h1⟩
  · right
    cases h2 : a.newPageOk
    · left
      exact ⟨rfl, Or.inl rfl, _, getDirectLink_newPage_failed videoId a h1 h2, by simp⟩
    · cases h3 : a.setUserAgentOk
      · left
        exact ⟨rfl, Or.inr (Or.inl rfl), _,
          getDirectLink_setUserAgent_failed videoId a h1 h2 h3, by simp⟩
      · cases h4 : a.gotoOk
        · left
          exact ⟨rfl, Or.inr (Or.inr rfl), _,
            getDirectLink_goto_failed videoId a h1 h2 h3 h4, by simp⟩
        · right; exact ⟨rfl, rfl, rfl, rfl⟩

theorem preRace_linked (a : Attempt) :
    (preRace a).linkPromise = none ↔ (preRace a).foundUrl = none := by
  unfold preRace observeDuring
  apply foldl_onRequest_linked
  apply foldl_onRequest_linked
  simp

theorem preRace_found (a : Attempt) (u : String) (h : (preRace a).foundUrl = some u) :
    ∃ r ∈ a.requests, r.url = u ∧ endsWithM3u8 r.url = true ∧
      a.observerAt ≤ r.time ∧ r.time < a.raceAt := by
  unfold preRace observeDuring at h
  rcases foldl_onRequest_found _ _ u h with h1 | ⟨r, hr, hu, hm⟩
  · rcases foldl_onRequest_found _ _ u h1 with h0 | ⟨r, hr, hu, hm⟩
    · simp at h0
    · simp only [List.mem_filter, Bool.and_eq_true, decide_eq_true_eq] at hr
      refine ⟨r, hr.1, hu, hm, hr.2.1, ?_⟩
      have := hr.2.2
      unfold Attempt.raceAt Attempt.observerAt at *
      omega
  · simp only [List.mem_filter, Bool.and_eq_true, decide_eq_true_eq] at hr
    refine ⟨r, hr.1, hu, hm, ?_, hr.2.2⟩
    have := hr.2.1
    unfold Attempt.observerAt at *
    omega

theorem raceAndReturn_found (a : Attempt) (u : String)
    (h : raceAndReturn a.raceAt (preRace a) a.requests = some u) :
    ∃ r ∈ a.requests, r.url = u ∧ endsWithM3u8 r.url = true ∧
      a.observerAt ≤ r.time ∧ r.time < a.raceAt + RACE_TIMEOUT_MS := by
  unfold raceAndReturn at h
  by_cases hp : (preRace a).linkPromise.isSome = true
  · simp only [hp, if_true] at h
    obtain ⟨r, hr, hu, hm, h1, h2⟩ := preRace_found a u h
    exact ⟨r, hr, hu, hm, h1, by omega⟩
  · simp only [hp] at h
    have hnone : (preRace a).foundUrl = none := by
      apply (preRace_linked a).mp
      simpa using hp
    have hpn : (preRace a).linkPromise = none := by simpa using hp
    obtain ⟨r, hr, hu, hm, ht⟩ := awaitLink_found _ _ _ u hnone hpn h
    simp only [List.mem_filter, decide_eq_true_eq] at hr
    refine ⟨r, hr.1, hu, hm, ?_, ht⟩
    have := hr.2
    unfold Attempt.raceAt Attempt.observerAt at *
    omega

/-- A value `getDirectLink` returns is the URL of a request the listener saw before the
timer of the race was due, and it ends in `.m3u8`. -/
theorem getDirectLink_sound (videoId : String) (a : Attempt) (u : String)
    (h : (getDirectLink videoId a).outcome = Outcome.returned (some u)) :
    endsWithM3u8 u = true ∧ ∃ r ∈ a.observed, r.url = u ∧
      r.time < a.raceAt + RACE_TIMEOUT_MS := by
  rcases getDirectLink_cases videoId a with ⟨_, h0⟩ | ⟨_, _, calls, h0, _⟩ | ⟨h1, h2, h3, h4⟩
  · rw [h0] at h
    simp at h
  · rw [h0] at h
    unfold closeBrowser at h
    cases hc : a.closeOk <;> simp [hc] at h
  · rw [getDirectLink_all_resolved videoId a h1 h2 h3 h4] at h
    unfold closeBrowser at h
    cases hc : a.closeOk
    · simp [hc] at h
    · simp only [hc, if_true] at h
      have h5 : raceAndReturn a.raceAt (preRace a) a.requests = some u := by
        injection h
      obtain ⟨r, hr, hu, hm, hlo, hhi⟩ := raceAndReturn_found a u h5
      refine ⟨hu ▸ hm, r, ?_, hu, hhi⟩
      simp [Attempt.observed, hr, hlo]

theorem getDirectLink_returns (videoId : String) (a : Attempt)
    (hclose : a.launchOk = true → a.closeOk = true) :
    ∃ v, (getDirectLink videoId a).outcome = Outcome.returned v := by
  rcases getDirectLink_cases videoId a with ⟨_, h0⟩ | ⟨hl, _, calls, h0, _⟩ | ⟨h1, h2, h3, h4⟩
  · exact ⟨none, by rw [h0]⟩
  · exact ⟨none, by rw [h0]; simp [closeBrowser, hclose hl]⟩
  · refine ⟨raceAndReturn a.raceAt (preRace a) a.requests, ?_⟩
    rw [getDirectLink_all_resolved videoId a h1 h2 h3 h4]
    simp [closeBrowser, hclose h1]

theorem getDirectLink_close_failed (videoId : String) (a : Attempt)
    (hl : a.launchOk = true) (hc : a.closeOk = false) :
    (getDirectLink videoId a).outcome = Outcome.raised := by
  rcases getDirectLink_cases videoId a with ⟨h, _⟩ | ⟨_, _, calls, h0, _⟩ | ⟨h1, h2, h3, h4⟩
  · rw [hl] at h
    exact absurd h (by simp)
  · rw [h0]
    simp [closeBrowser, hc]
  · rw [getDirectLink_all_resolved videoId a h1 h2 h3 h4]
    simp [closeBrowser, hc]

theorem foldl_onRequest_none_inv (rs : List PageRequest) (s : Observer)
    (h : (rs.foldl (fun st r => onRequest st r.url) s).foundUrl = none) :
    s.foundUrl = none ∧ ∀ r ∈ rs, endsWithM3u8 r.url = false := by
  induction rs generalizing s with
  | nil => exact ⟨by simpa using h, by simp⟩
  | cons r rest ih =>
    simp only [List.foldl_cons] at h
    obtain ⟨h1, h2⟩ := ih _ h
    cases hm : endsWithM3u8 r.url
    · have hsame : onRequest s r.url = s := by simp [onRequest, hm]
      rw [hsame] at h1
      refine ⟨h1, ?_⟩
      intro x hx
      rcases List.mem_cons.mp hx with hx | hx
      · rw [hx]; exact hm
      · exact h2 x hx
    · simp [onRequest, hm] at h1

theorem preRace_none_inv (a : Attempt) (h : (preRace a).foundUrl = none) :
    ∀ r ∈ a.requests, a.observerAt ≤ r.time → r.time < a.raceAt →
      endsWithM3u8 r.url = false := by
  unfold preRace observeDuring at h
  obtain ⟨h1, h2⟩ := foldl_onRequest_none_inv _ _ h
  obtain ⟨_, h3⟩ := foldl_onRequest_none_inv _ _ h1
  intro r hr hlo hhi
  by_cases hg : r.time < a.observerAt + a.gotoMs
  · apply h3
    simp [hr, hlo, hg]
  · apply h2
    have hg2 : a.observerAt + a.gotoMs ≤ r.time := Nat.le_of_not_lt hg
    simp [hr, hg2, hhi]

theorem find?_agree (rs : List PageRequest) (p q : PageRequest → Bool)
    (h : ∀ x ∈ rs, p x = q x) : rs.find? p = rs.find? q := by
  induction rs with
  | nil => rfl
  | cons x rest ih =>
    rw [List.find?_cons, List.find?_cons, h x (List.mem_cons_self _ _),
      ih (fun y hy => h y (List.mem_cons_of_mem _ hy))]

/-! ## Which manifest request is returned (C5) -/

/-- Claim C5 on the code.  (1) The example of the claim, two manifest requests fired during
page navigation: the first observed request ending in `.m3u8` is `master.m3u8`, the value
`getDirectLink` returns is the later `720p.m3u8`.  (2) Two manifest requests delivered in
one turn while the race is pending: again the first is `master.m3u8` and the later
`720p.m3u8` is returned.  In both the listener has overwritten `foundUrl` before
`return foundUrl` runs. -/
theorem first_manifest_not_always_returned :
    (firstManifest (smoothAttempt twoManifests).observed =
        some { time := 1500, url := "https://cdn.example/abc123/master.m3u8" } ∧
      preRace (smoothAttempt twoManifests) =
        { foundUrl := some "https://cdn.example/abc123/720p.m3u8"
          linkPromise := some "https://cdn.example/abc123/master.m3u8" } ∧
      (getDirectLink "abc123" (smoothAttempt twoManifests)).outcome =
        Outcome.returned (some "https://cdn.example/abc123/720p.m3u8")) ∧
    (firstManifest (smoothAttempt manifestsInOneTurn).observed =
        some { time := 9000, url := "https://cdn.example/abc123/master.m3u8" } ∧
      (getDirectLink "abc123" (smoothAttempt manifestsInOneTurn)).outcome =
        Outcome.returned (some "https://cdn.example/abc123/720p.m3u8")) := by
  decide

/-- The path on which the first manifest request does win: in an attempt whose driver
calls and whose session close all succeed and whose request events are delivered in time
order, if the first observed request ending in `.m3u8` is observed before the timer of the
race is due, and every request ending in `.m3u8` that is observed before the race starts or
in the turn of that first one carries its URL, then `getDirectLink` returns the URL of the
first one, whatever requests ending in `.m3u8` are observed in later turns. -/
theorem first_manifest_returned (videoId : String) (a : Attempt) (r : PageRequest)
    (h1 : a.launchOk = true) (h2 : a.newPageOk = true) (h3 : a.setUserAgentOk = true)
    (h4 : a.gotoOk = true) (h5 : a.closeOk = true)
    (hord : InOrder a.requests)
    (hfirst : firstManifest a.observed = some r)
    (hdue : r.time < a.raceAt + RACE_TIMEOUT_MS)
    (hsame : ∀ x ∈ a.observed, endsWithM3u8 x.url = true →
      (x.time < a.raceAt ∨ x.time = r.time) → x.url = r.url) :
    (getDirectLink videoId a).outcome = Outcome.returned (some r.url) := by
  rw [getDirectLink_all_resolved videoId a h1 h2 h3 h4]
  simp only [closeBrowser, h5, if_true]
  congr 1
  unfold raceAndReturn
  by_cases hp : (preRace a).linkPromise.isSome = true
  · simp only [hp, if_true]
    cases hf : (preRace a).foundUrl with
    | none =>
      have := (preRace_linked a).mpr hf
      simp [this] at hp
    | some u =>
      obtain ⟨x, hx, hu, hm, hlo, hhi⟩ := preRace_found a u hf
      have hxo : x ∈ a.observed := by simp [Attempt.observed, hx, hlo]
      rw [← hu, hsame x hxo hm (Or.inl hhi)]
  · simp only [hp]
    have hpn : (preRace a).linkPromise = none := by simpa using hp
    have hfn : (preRace a).foundUrl = none := (preRace_linked a).mp hpn
    have hquiet := preRace_none_inv a hfn
    apply awaitLink_first _ _ _ r hpn
    · exact List.Pairwise.filter _ hord
    · unfold firstManifest Attempt.observed at *
      rw [List.find?_filter] at hfirst ⊢
      rw [← hfirst]
      apply find?_agree
      intro x hx
      cases hm : endsWithM3u8 x.url
      · simp
      · by_cases hlo : a.observerAt ≤ x.time
        · by_cases hhi : x.time < a.raceAt
          · rw [hquiet x hx hlo hhi] at hm
            exact absurd hm (by simp)
          · have : a.raceAt ≤ x.time := Nat.le_of_not_lt hhi
            simp [hlo, this]
        · have : ¬ a.raceAt ≤ x.time := by
            unfold Attempt.raceAt Attempt.observerAt at *
            omega
          simp [hlo, this]
    · exact hdue
    · intro x hx hm hxt
      simp only [List.mem_filter, decide_eq_true_eq] at hx
      have hlo : a.observerAt ≤ x.time := by
        have := hx.2
        unfold Attempt.raceAt Attempt.observerAt at *
        omega
      have hxo : x ∈ a.observed := by simp [Attempt.observed, hx.1, hlo]
      exact hsame x hxo hm (Or.inr hxt)

/-- The first manifest request is observed alone in its turn while the race is pending (at
9000 ms, the race runs from 4000 ms to 24000 ms), a second one with another URL follows in
a later turn; the first is returned. -/
theorem first_manifest_returned_witness :
    (getDirectLink "abc123" (smoothAttempt manifestsDuringRace)).outcome =
      Outcome.returned (some "https://cdn.example/abc123/master.m3u8") :=
  first_manifest_returned "abc123" (smoothAttempt manifestsDuringRace)
    { time := 9000, url := "https://cdn.example/abc123/master.m3u8" }
    rfl rfl rfl rfl rfl (by decide) (by decide) (by decide) (by decide)

/-! ## The deadline (C7) -/

/-- Claim C7 as stated does not hold: in `slowNavigation` no request ending in `.m3u8` is
observed within 20 s of the start of the attempt (the only one is stamped 22000 ms, while
`page.goto` is still pending), and `getDirectLink` returns its URL, not null. -/
theorem deadline_not_from_attempt_start :
    (∀ r ∈ slowNavigation.requests, r.time < 20000 → endsWithM3u8 r.url = false) ∧
    (getDirectLink "abc123" slowNavigation).outcome =
      Outcome.returned (some "https://cdn.example/abc123/master.m3u8") := by
  decide

/-- Claim C7, amended: the deadline runs from the start of the race.  If no request ending
in `.m3u8` is observed before the timer is due, 20000 ms after `page.goto` and
`page.evaluate` have settled, and closing the session does not fail, then `getDirectLink`
returns null, however long navigation and click take and whatever is observed later. -/
theorem timeout_returns_null (videoId : String) (a : Attempt)
    (hclose : a.launchOk = true → a.closeOk = true)
    (hquiet : ∀ r ∈ a.observed, r.time < a.raceAt + 20000 → endsWithM3u8 r.url = false) :
    (getDirectLink videoId a).outcome = Outcome.returned none := by
  obtain ⟨v, hv⟩ := getDirectLink_returns videoId a hclose
  cases v with
  | none => exact hv
  | some u =>
    obtain ⟨hm, r, hr, hu, ht⟩ := getDirectLink_sound videoId a u hv
    have := hquiet r hr ht
    rw [hu, hm] at this
    exact absurd this (by simp)

/-- Claim C7, amended, at a concrete attempt: the manifest request is emitted at 24000 ms,
when the timer has fired and the session is still open; null is returned. -/
theorem timeout_returns_null_witness :
    (getDirectLink "abc123" (smoothAttempt lateManifest)).outcome = Outcome.returned none :=
  timeout_returns_null "abc123" (smoothAttempt lateManifest) (by decide) (by decide)

/-! ## The handler as a whole -/

theorem handler_responded (id : Option String) (cache : LinkCache) (nowCheck : Int)
    (a : Attempt) (nowStore : Int) (r : Response) (effects : List Effect)
    (h : arrive id cache nowCheck = Arrival.responded r effects) :
    handler id cache nowCheck a nowStore =
      { response := some r, cache := cache, effects := effects } := by
  simp [handler, h]

theorem handler_awaiting (id : Option String) (cache : LinkCache) (nowCheck : Int)
    (a : Attempt) (nowStore : Int) (videoId : String) (effects : List Effect)
    (h : arrive id cache nowCheck = Arrival.awaiting videoId effects) :
    handler id cache nowCheck a nowStore =
      { response := (resume videoId (getDirectLink videoId a).outcome cache nowStore).response
        cache := (resume videoId (getDirectLink videoId a).outcome cache nowStore).cache
        effects := effects ++ [Effect.getDirectLink videoId] ++
          (getDirectLink videoId a).calls.map Effect.driver ++
          (resume videoId (getDirectLink videoId a).outcome cache nowStore).effects } := by
  simp [handler, h]

theorem arrive_awaiting_id (id : Option String) (cache : LinkCache) (now : Int)
    (videoId : String) (effects : List Effect)
    (h : arrive id cache now = Arrival.awaiting videoId effects) :
    id = some videoId ∧ videoId ≠ "" ∧ Effect.getDirectLink videoId ∉ effects ∧
      (∀ e ∈ effects, e = Effect.cacheHas videoId ∨ e = Effect.cacheGet videoId) := by
  cases id with
  | none => simp [arrive] at h
  | some v =>
    by_cases hv : v = ""
    · subst hv
      simp [arrive, truthy] at h
    · cases hg : LinkCache.get cache v with
      | none =>
        rw [arrive_absent v hv cache now hg] at h
        injection h with h1 h2
        subst h1
        subst h2
        simp [hv]
      | some e =>
        by_cases hage : now - e.timestamp < 7200000
        · rw [arrive_fresh v hv cache now e hg hage] at h
          simp at h
        · rw [arrive_stale v hv cache now e hg hage] at h
          injection h with h1 h2
          subst h1
          subst h2
          simp [hv]

theorem resume_cases (videoId : String) (o : Outcome) (cache : LinkCache) (now : Int) :
    (resume videoId o cache now).cache = cache ∧
      (resume videoId o cache now).effects = [] ∧
      ((o = Outcome.raised ∧ (resume videoId o cache now).response = none) ∨
        (resume videoId o cache now).response =
          some { status := 404, body := Body.error MSG_NOT_FOUND }) ∨
    ∃ u, o = Outcome.returned (some u) ∧ u ≠ "" ∧
      resume videoId o cache now =
        { response := some { status := 200, body := Body.success u Source.live }
          cache := LinkCache.set cache videoId { url := u, timestamp := now }
          effects := [Effect.cacheSet videoId { url := u, timestamp := now }] } := by
  cases o with
  | raised => left; simp [resume]
  | returned v =>
    cases v with
    | none => left; simp [resume]
    | some u =>
      by_cases hu : u = ""
      · left; simp [resume, truthy, hu]
      · right; exact ⟨u, rfl, hu, by simp [resume, truthy, hu]⟩

theorem endsWithM3u8_ne_empty (u : String) (h : endsWithM3u8 u = true) : u ≠ "" := by
  intro hu
  subst hu
  revert h
  decide

theorem resume_response_cache_free (videoId : String) (o : Outcome) (c1 c2 : LinkCache)
    (now : Int) :
    (resume videoId o c1 now).response = (resume videoId o c2 now).response := by
  cases o with
  | raised => rfl
  | returned v =>
    cases v with
    | none => rfl
    | some u => by_cases hu : u = "" <;> simp [resume, truthy, hu]

theorem resume_not_from_cache (videoId : String) (o : Outcome) (cache : LinkCache) (now : Int)
    (url : String) :
    (resume videoId o cache now).response ≠
      some { status := 200, body := Body.success url Source.cache } := by
  rcases resume_cases videoId o cache now with ⟨_, _, ⟨_, h⟩ | h⟩ | ⟨u, _, _, h⟩
  · rw [h]; simp
  · rw [h]; simp
  · rw [h]; simp

theorem count_getDirectLink_driver (videoId : String) (calls : List Call) :
    (calls.map Effect.driver).count (Effect.getDirectLink videoId) = 0 := by
  rw [List.count_eq_zero]
  intro h
  obtain ⟨c, _, hc⟩ := List.mem_map.mp h
  exact absurd hc (by simp)

theorem count_getDirectLink_awaiting (videoId : String) (effects : List Effect)
    (calls : List Call) (o : Outcome) (cache : LinkCache) (now : Int)
    (h : Effect.getDirectLink videoId ∉ effects) :
    (effects ++ [Effect.getDirectLink videoId] ++ calls.map Effect.driver ++
      (resume videoId o cache now).effects).count (Effect.getDirectLink videoId) = 1 := by
  have h1 : effects.count (Effect.getDirectLink videoId) = 0 := List.count_eq_zero.mpr h
  have h2 := count_getDirectLink_driver videoId calls
  have h3 : (resume videoId o cache now).effects.count (Effect.getDirectLink videoId) = 0 := by
    rcases resume_cases videoId o cache now with ⟨_, h, _⟩ | ⟨u, _, _, h⟩
    · rw [h]; rfl
    · rw [h]; simp
  simp [List.count_append, h1, h2, h3]

/-! ## The cache check (C1) -/

/-- Claim C1: for a non-empty identifier `I`, a cache `C` and the time `now` of the check,
the handler answers from the cache exactly when `C` holds an entry for `I` with
`now - timestamp < 7200000`; it then answers 200 with the URL of the entry and source
`cache`, leaves the cache alone and its only effects are the `has` and the `get` on the
cache (no call of `getDirectLink`, no driver call).  In every other case it calls
`getDirectLink` exactly once, goes on with its result as the handler does on a miss, and
answers what it would answer on a cache without an entry for `I`. -/
theorem cache_hit_iff_fresh (I : String) (hI : I ≠ "") (C : LinkCache) (now : Int)
    (a : Attempt) (nowStore : Int) :
    ((∃ url, (handler (some I) C now a nowStore).response =
          some { status := 200, body := Body.success url Source.cache }) ↔
        ∃ e, LinkCache.get C I = some e ∧ now - e.timestamp < 7200000) ∧
    (∀ e, LinkCache.get C I = some e → now - e.timestamp < 7200000 →
        handler (some I) C now a nowStore =
          { response := some { status := 200, body := Body.success e.url Source.cache }
            cache := C
            effects := [Effect.cacheHas I, Effect.cacheGet I] }) ∧
    ((¬ ∃ e, LinkCache.get C I = some e ∧ now - e.timestamp < 7200000) →
        (handler (some I) C now a nowStore).effects.count (Effect.getDirectLink I) = 1 ∧
        (handler (some I) C now a nowStore).response =
          (resume I (getDirectLink I a).outcome C nowStore).response ∧
        (handler (some I) C now a nowStore).cache =
          (resume I (getDirectLink I a).outcome C nowStore).cache ∧
        ∀ C2, LinkCache.get C2 I = none →
          (handler (some I) C2 now a nowStore).response =
            (handler (some I) C now a nowStore).response) := by
  have hit : ∀ e, LinkCache.get C I = some e → now - e.timestamp < 7200000 →
      handler (some I) C now a nowStore =
        { response := some { status := 200, body := Body.success e.url Source.cache }
          cache := C
          effects := [Effect.cacheHas I, Effect.cacheGet I] } := by
    intro e he hage
    exact handler_responded _ _ _ _ _ _ _ (arrive_fresh I hI C now e he hage)
  have miss : (¬ ∃ e, LinkCache.get C I = some e ∧ now - e.timestamp < 7200000) →
      ∃ effects, arrive (some I) C now = Arrival.awaiting I effects := by
    intro hno
    cases hg : LinkCache.get C I with
    | none => exact ⟨_, arrive_absent I hI C now hg⟩
    | some e =>
      have hage : ¬ now - e.timestamp < 7200000 := fun h => hno ⟨e, hg, h⟩
      exact ⟨_, arrive_stale I hI C now e hg hage⟩
  refine ⟨⟨?_, ?_⟩, hit, ?_⟩
  · rintro ⟨url, hurl⟩
    by_contra hno
    obtain ⟨effects, harr⟩ := miss hno
    rw [handler_awaiting _ _ _ _ _ _ _ harr] at hurl
    exact resume_not_from_cache _ _ _ _ _ hurl
  · rintro ⟨e, he, hage⟩
    exact ⟨e.url, by rw [hit e he hage]⟩
  · intro hno
    obtain ⟨effects, harr⟩ := miss hno
    have hmem := (arrive_awaiting_id _ _ _ _ _ harr).2.2.1
    rw [handler_awaiting _ _ _ _ _ _ _ harr]
    refine ⟨count_getDirectLink_awaiting _ _ _ _ _ _ hmem, rfl, rfl, ?_⟩
    intro C2 h2
    rw [handler_awaiting _ _ _ _ _ _ _ (arrive_absent I hI C2 now h2)]
    exact resume_response_cache_free _ _ _ _ _

/-- Claim C1 at a concrete request: an entry for `abc123` that is 7199999 ms old is
served from the cache, one that is 7200000 ms old is not. -/
theorem cache_hit_iff_fresh_witness :
    handler (some "abc123") seededCache 7200999 (smoothAttempt noManifest) 7230000 =
      { response := some
          { status := 200
            body := Body.success "https://cdn.example/abc123/master.m3u8" Source.cache }
        cache := seededCache
        effects := [Effect.cacheHas "abc123", Effect.cacheGet "abc123"] } ∧
    (handler (some "abc123") seededCache 7201000 (smoothAttempt noManifest)
        7230000).effects.count (Effect.getDirectLink "abc123") = 1 :=
  ⟨(cache_hit_iff_fresh "abc123" (by decide) seededCache 7200999 (smoothAttempt noManifest)
      7230000).2.1
      { url := "https://cdn.example/abc123/master.m3u8", timestamp := 1000 }
      (by decide) (by decide),
    ((cache_hit_iff_fresh "abc123" (by decide) seededCache 7201000 (smoothAttempt noManifest)
      7230000).2.2
      (by
        rintro ⟨e, he, hage⟩
        have he2 : e =
            { url := "https://cdn.example/abc123/master.m3u8", timestamp := 1000 } := by
          simp [seededCache, LinkCache.get] at he
          exact he.symm
        subst he2
        revert hage
        decide)).1⟩

/-! ## The missing identifier (C4) -/

/-- Claim C4: when the query parameter `id` is missing or is the empty string, whatever the
cache holds, the handler answers 400 with an error body, leaves the cache as it is and has
no effect at all: no read and no write of the cache, no call of `getDirectLink`, no driver
call. -/
theorem missing_id_rejected (id : Option String) (hid : id = none ∨ id = some "")
    (C : LinkCache) (now : Int) (a : Attempt) (nowStore : Int) :
    handler id C now a nowStore =
      { response := some { status := 400, body := Body.error MSG_ID_REQUIRED }
        cache := C
        effects := [] } := by
  rcases hid with h | h
  · subst h
    exact handler_responded _ _ _ _ _ _ _ (arrive_none C now)
  · subst h
    exact handler_responded _ _ _ _ _ _ _ (arrive_empty C now)

/-- Claim C4 at a concrete request: the empty identifier, with a fresh entry in the cache
and a page that would deliver a manifest. -/
theorem missing_id_rejected_witness :
    handler (some "") seededCache 2000 (smoothAttempt oneManifest) 30000 =
      { response := some { status := 400, body := Body.error MSG_ID_REQUIRED }
        cache := seededCache
        effects := [] } :=
  missing_id_rejected (some "") (Or.inr rfl) seededCache 2000 (smoothAttempt oneManifest) 30000

/-! ## What a request does to the cache (C3) -/

/-- Claim C3: a request changes the cache only when it is answered 200 with source `live`,
and then by one `set` on the key of the request; the entry of every other key reads as
before; a request answered 400, 404 or 200 with source `cache` leaves the whole cache, a
stale entry of its own key included, as it was. -/
theorem handler_cache_frame (id : Option String) (C : LinkCache) (now : Int) (a : Attempt)
    (nowStore : Int) :
    ((handler id C now a nowStore).cache ≠ C →
      ∃ I u, id = some I ∧
        (handler id C now a nowStore).response =
          some { status := 200, body := Body.success u Source.live } ∧
        (handler id C now a nowStore).cache =
          LinkCache.set C I { url := u, timestamp := nowStore }) ∧
    (∀ k, id ≠ some k →
      LinkCache.get (handler id C now a nowStore).cache k = LinkCache.get C k) ∧
    (∀ r, (handler id C now a nowStore).response = some r →
      (r.status = 400 ∨ r.status = 404 ∨
        ∃ url, r = { status := 200, body := Body.success url Source.cache }) →
      (handler id C now a nowStore).cache = C) := by
  cases harr : arrive id C now with
  | responded r effects =>
    rw [handler_responded _ _ _ _ _ _ _ harr]
    exact ⟨fun h => absurd rfl h, fun _ _ => rfl, fun _ _ _ => rfl⟩
  | awaiting v effects =>
    rw [handler_awaiting _ _ _ _ _ _ _ harr]
    have hid := (arrive_awaiting_id _ _ _ _ _ harr).1
    rcases resume_cases v (getDirectLink v a).outcome C nowStore with
      ⟨hc, _, _⟩ | ⟨u, _, _, hr⟩
    · refine ⟨?_, ?_, ?_⟩ <;> simp [hc]
    · simp only [hr]
      refine ⟨fun _ => ⟨v, u, hid, rfl, rfl⟩, ?_, ?_⟩
      · intro k hk
        apply get_set_other
        intro hkv
        exact hk (by rw [hid, hkv])
      · intro r hresp hstatus
        have hr2 : r = { status := 200, body := Body.success u Source.live } := by
          injection hresp with h
          exact h.symm
        subst hr2
        simp at hstatus

/-- Claim C3 at a concrete request: a request for `deadlink` that is answered 404 leaves
the cache, which holds an entry for `abc123`, as it was. -/
theorem handler_cache_frame_witness :
    (handler (some "deadlink") seededCache 2000 (smoothAttempt noManifest) 30000).cache =
      seededCache :=
  (handler_cache_frame (some "deadlink") seededCache 2000 (smoothAttempt noManifest)
    30000).2.2 { status := 404, body := Body.error MSG_NOT_FOUND } (by decide)
    (Or.inr (Or.inl rfl))

/-! ## Store, then look up (C2) -/

theorem stepCache_get (cache : LinkCache) (e : Event) (I : String)
    (h : e.storesFor I = false) :
    LinkCache.get (stepCache cache e) I = LinkCache.get cache I := by
  cases e with
  | arrive id now => rfl
  | resume v a now =>
    simp only [stepCache]
    rcases resume_cases v (getDirectLink v a).outcome cache now with
      ⟨hc, _, _⟩ | ⟨u, ho, hu, hr⟩
    · rw [hc]
    · rw [hr]
      apply get_set_other
      intro hIv
      simp [Event.storesFor, ho, truthy, hu, hIv] at h

theorem runEvents_get (events : List Event) (cache : LinkCache) (I : String)
    (h : ∀ e ∈ events, e.storesFor I = false) :
    LinkCache.get (runEvents cache events) I = LinkCache.get cache I := by
  induction events generalizing cache with
  | nil => rfl
  | cons e rest ih =>
    simp only [runEvents, List.foldl_cons]
    have h1 := ih (stepCache cache e) (fun x hx => h x (List.mem_cons_of_mem _ hx))
    simp only [runEvents] at h1
    rw [h1]
    exact stepCache_get cache e I (h e (List.mem_cons_self _ _))

theorem runEvents_append (cache : LinkCache) (xs ys : List Event) :
    runEvents cache (xs ++ ys) = runEvents (runEvents cache xs) ys := by
  simp [runEvents, List.foldl_append]

/-- Claim C2: let the handler of a request for `I` go on at time `t` after a live resolution
and answer 200 with URL `u` and source `live`, after any earlier steps `before` (earlier
live resolutions of `I` included).  Let the steps `after` follow, arrivals and
continuations of any requests, none of them storing a URL for `I`.  Then a request for `I`
that arrives at a time `t2` with `t2 - t < 7200000` is answered 200 with the same `u` and
source `cache`; its only effects are the `has` and the `get` on the cache, so
`getDirectLink` is not called. -/
theorem store_then_lookup (cache : LinkCache) (before after : List Event) (I u : String)
    (a a2 : Attempt) (t t2 nowStore : Int) (hI : I ≠ "")
    (hlive : (resume I (getDirectLink I a).outcome (runEvents cache before) t).response =
      some { status := 200, body := Body.success u Source.live })
    (hquiet : ∀ e ∈ after, e.storesFor I = false)
    (hfresh : t2 - t < 7200000) :
    handler (some I) (runEvents cache (before ++ Event.resume I a t :: after)) t2 a2 nowStore =
      { response := some { status := 200, body := Body.success u Source.cache }
        cache := runEvents cache (before ++ Event.resume I a t :: after)
        effects := [Effect.cacheHas I, Effect.cacheGet I] } := by
  have hget : LinkCache.get (runEvents cache (before ++ Event.resume I a t :: after)) I =
      some { url := u, timestamp := t } := by
    rw [runEvents_append]
    have hcons : runEvents (runEvents cache before) (Event.resume I a t :: after) =
        runEvents (stepCache (runEvents cache before) (Event.resume I a t)) after := rfl
    rw [hcons, runEvents_get after _ I hquiet]
    simp only [stepCache]
    rcases resume_cases I (getDirectLink I a).outcome (runEvents cache before) t with
      ⟨_, _, ⟨_, h⟩ | h⟩ | ⟨u2, _, _, h⟩
    · rw [h] at hlive
      exact absurd hlive (by simp)
    · rw [h] at hlive
      exact absurd hlive (by simp [MSG_NOT_FOUND])
    · rw [h] at hlive ⊢
      have hu : u2 = u := by
        injection hlive with h1
        injection h1 with _ h2
        injection h2
      subst hu
      exact get_set_self _ _ _
  exact handler_responded _ _ _ _ _ _ _
    (arrive_fresh I hI _ t2 { url := u, timestamp := t } hget hfresh)

/-- Claim C2 at a concrete run: a first live resolution of `abc123` stores the variant
playlist at time 500, a second one stores the master playlist at time 30000, a request
for another identifier is resolved in between and after; a request for `abc123` at time
7229999 is answered with the master playlist from the cache. -/
theorem store_then_lookup_witness :
    handler (some "abc123")
        (runEvents []
          ([Event.resume "abc123" (smoothAttempt twoManifests) 500,
            Event.arrive (some "xyz") 600] ++
            Event.resume "abc123" (smoothAttempt oneManifest) 30000 ::
            [Event.resume "xyz" (smoothAttempt oneManifest) 40000,
              Event.resume "abc123" (smoothAttempt noManifest) 50000]))
        7229999 (smoothAttempt noManifest) 7260000 =
      { response := some
          { status := 200
            body := Body.success "https://cdn.example/abc123/master.m3u8" Source.cache }
        cache :=
          runEvents []
            ([Event.resume "abc123" (smoothAttempt twoManifests) 500,
              Event.arrive (some "xyz") 600] ++
              Event.resume "abc123" (smoothAttempt oneManifest) 30000 ::
              [Event.resume "xyz" (smoothAttempt oneManifest) 40000,
                Event.resume "abc123" (smoothAttempt noManifest) 50000])
        effects := [Effect.cacheHas "abc123", Effect.cacheGet "abc123"] } :=
  store_then_lookup []
    [Event.resume "abc123" (smoothAttempt twoManifests) 500, Event.arrive (some "xyz") 600]
    [Event.resume "xyz" (smoothAttempt oneManifest) 40000,
      Event.resume "abc123" (smoothAttempt noManifest) 50000]
    "abc123" "https://cdn.example/abc123/master.m3u8"
    (smoothAttempt oneManifest) (smoothAttempt noManifest) 30000 7229999 7260000
    (by decide) (by decide) (by decide) (by decide)

/-! ## Soundness of the result (C6) -/

/-- A URL returned by `getDirectLink` is truthy: the handler stores it and answers 200
with source `live`. -/
theorem resume_found (videoId : String) (a : Attempt) (u : String) (cache : LinkCache)
    (now : Int) (h : (getDirectLink videoId a).outcome = Outcome.returned (some u)) :
    resume videoId (getDirectLink videoId a).outcome cache now =
      { response := some { status := 200, body := Body.success u Source.live }
        cache := LinkCache.set cache videoId { url := u, timestamp := now }
        effects := [Effect.cacheSet videoId { url := u, timestamp := now }] } := by
  have hu : u ≠ "" := endsWithM3u8_ne_empty u (getDirectLink_sound videoId a u h).1
  rw [h]
  simp [resume, truthy, hu]

theorem set_entries (c : LinkCache) (key : String) (value : CacheEntry) :
    ∀ p ∈ LinkCache.set c key value, p ∈ c ∨ p = (key, value) := by
  induction c with
  | nil =>
    intro p hp
    right
    simpa [LinkCache.set] using hp
  | cons q rest ih =>
    obtain ⟨k, v⟩ := q
    intro p hp
    by_cases hk : k = key
    · simp only [LinkCache.set, hk, if_true] at hp
      rcases List.mem_cons.mp hp with h | h
      · right; exact h
      · left; exact List.mem_cons_of_mem _ h
    · simp only [LinkCache.set, hk, if_false] at hp
      rcases List.mem_cons.mp hp with h | h
      · left; rw [h]; exact List.mem_cons_self _ _
      · rcases ih p h with h2 | h2
        · left; exact List.mem_cons_of_mem _ h2
        · right; exact h2

theorem stepCache_urls (cache : LinkCache) (e : Event)
    (h : ∀ p ∈ cache, endsWithM3u8 p.2.url = true) :
    ∀ p ∈ stepCache cache e, endsWithM3u8 p.2.url = true := by
  cases e with
  | arrive id now => exact h
  | resume v a now =>
    simp only [stepCache]
    rcases resume_cases v (getDirectLink v a).outcome cache now with
      ⟨hc, _, _⟩ | ⟨u, ho, _, hr⟩
    · rw [hc]; exact h
    · rw [hr]
      intro p hp
      rcases set_entries _ _ _ p hp with h1 | h1
      · exact h p h1
      · rw [h1]
        exact (getDirectLink_sound v a u ho).1

/-- Every URL of a cache that started empty ends in `.m3u8`, after any steps. -/
theorem stored_urls_end_in_m3u8 (events : List Event) :
    ∀ p ∈ runEvents [] events, endsWithM3u8 p.2.url = true := by
  have gen : ∀ (es : List Event) (c : LinkCache),
      (∀ p ∈ c, endsWithM3u8 p.2.url = true) →
      ∀ p ∈ runEvents c es, endsWithM3u8 p.2.url = true := by
    intro es
    induction es with
    | nil => intro c hc; exact hc
    | cons e rest ih =>
      intro c hc
      exact ih (stepCache c e) (stepCache_urls c e hc)
  exact gen events [] (by simp)

/-- Without an observed request ending in `.m3u8`, `getDirectLink` returns null or is
rejected by a failing `browser.close`; it never returns a URL. -/
theorem no_manifest_no_url (videoId : String) (a : Attempt)
    (h : ∀ r ∈ a.observed, endsWithM3u8 r.url = false) :
    (getDirectLink videoId a).outcome = Outcome.returned none ∨
      (a.closeOk = false ∧ (getDirectLink videoId a).outcome = Outcome.raised) := by
  cases ho : (getDirectLink videoId a).outcome with
  | raised =>
    right
    refine ⟨?_, rfl⟩
    cases hc : a.closeOk with
    | false => rfl
    | true =>
      obtain ⟨v, hv⟩ := getDirectLink_returns videoId a (fun _ => hc)
      rw [hv] at ho
      exact absurd ho (by simp)
  | returned v =>
    cases v with
    | none => left; rfl
    | some u =>
      obtain ⟨hm, r, hr, hu, _⟩ := getDirectLink_sound videoId a u ho
      have := h r hr
      rw [hu, hm] at this
      exact absurd this (by simp)

/-- Claim C6 on the code, at the attempt for `deadlink` in which no observed request ends
in `.m3u8` and `browser.close` rejects: `getDirectLink` does not return null, its promise
is rejected, and the handler sends no answer where the claim has a 404; the cache is left
as it was. -/
theorem deadlink_close_failure_unanswered :
    (∀ r ∈ ({ smoothAttempt noManifest with closeOk := false }).observed,
        endsWithM3u8 r.url = false) ∧
    (getDirectLink "deadlink" { smoothAttempt noManifest with closeOk := false }).outcome =
      Outcome.raised ∧
    (handler (some "deadlink") [] 0 { smoothAttempt noManifest with closeOk := false }
        30000).response = none ∧
    (handler (some "deadlink") [] 0 { smoothAttempt noManifest with closeOk := false }
        30000).cache = [] := by
  decide

/-! ## A failing `browser.close` (C8) -/

/-- Claim C8 on the code, at an attempt for `abc123` that finds its manifest: with a
`browser.close` that resolves the URL is returned; with one that rejects, everything else
the same, the promise of `getDirectLink` is rejected, the URL is lost and the handler sends
no answer and stores nothing.  The same after a rejected `page.goto`: the null that `catch`
returns is replaced by the rejection. -/
theorem close_failure_escapes :
    (getDirectLink "abc123" (smoothAttempt oneManifest)).outcome =
      Outcome.returned (some "https://cdn.example/abc123/master.m3u8") ∧
    (getDirectLink "abc123" { smoothAttempt oneManifest with closeOk := false }).outcome =
      Outcome.raised ∧
    (getDirectLink "abc123"
      { smoothAttempt oneManifest with gotoOk := false, closeOk := false }).outcome =
      Outcome.raised ∧
    handler (some "abc123") [] 0 { smoothAttempt oneManifest with closeOk := false } 30000 =
      { response := none
        cache := []
        effects := [Effect.cacheHas "abc123", Effect.getDirectLink "abc123",
          Effect.driver Call.launch, Effect.driver Call.newPage,
          Effect.driver Call.setUserAgent, Effect.driver Call.onRequest,
          Effect.driver (Call.goto "https://short.icu/abc123"),
          Effect.driver Call.evaluate, Effect.driver Call.close] } := by
  decide

/-! ## Driver failures (C9) -/

/-- Claim C9: when `puppeteer.launch`, `browser.newPage`, `page.setUserAgent` or
`page.goto` rejects and closing the session (if there is one) succeeds, `getDirectLink`
returns null, whatever requests were observed before, and a handler that waits for it
answers 404 with the fixed error body and leaves the cache as it was; every attempt that
returns null, a timeout included, gets that same answer; and whether `page.evaluate`
resolves or rejects makes no difference to what `getDirectLink` does. -/
theorem driver_failure_normalized (videoId : String) (a : Attempt) :
    ((a.launchOk = false ∨ a.newPageOk = false ∨ a.setUserAgentOk = false ∨
        a.gotoOk = false) →
      (a.launchOk = true → a.closeOk = true) →
      (getDirectLink videoId a).outcome = Outcome.returned none ∧
      ∀ id cache nowCheck nowStore effects,
        arrive id cache nowCheck = Arrival.awaiting videoId effects →
        (handler id cache nowCheck a nowStore).response =
            some { status := 404, body := Body.error MSG_NOT_FOUND } ∧
          (handler id cache nowCheck a nowStore).cache = cache) ∧
    (∀ b cache now, (getDirectLink videoId b).outcome = Outcome.returned none →
      resume videoId (getDirectLink videoId b).outcome cache now =
        { response := some { status := 404, body := Body.error MSG_NOT_FOUND }
          cache := cache
          effects := [] }) ∧
    getDirectLink videoId { a with evaluateOk := false } =
      getDirectLink videoId { a with evaluateOk := true } := by
  refine ⟨?_, ?_, ?_⟩
  · intro hfail hclose
    have hnull : (getDirectLink videoId a).outcome = Outcome.returned none := by
      rcases getDirectLink_cases videoId a with ⟨_, h0⟩ | ⟨hl, _, calls, h0, _⟩ |
        ⟨h1, h2, h3, h4⟩
      · rw [h0]
      · rw [h0]
        simp [closeBrowser, hclose hl]
      · rcases hfail with h | h | h | h
        · rw [h1] at h; exact absurd h (by simp)
        · rw [h2] at h; exact absurd h (by simp)
        · rw [h3] at h; exact absurd h (by simp)
        · rw [h4] at h; exact absurd h (by simp)
    refine ⟨hnull, ?_⟩
    intro id cache nowCheck nowStore effects harr
    rw [handler_awaiting _ _ _ _ _ _ _ harr, hnull]
    exact ⟨rfl, rfl⟩
  · intro b cache now hb
    rw [hb]
    rfl
  · rfl

/-- Claim C9 at a concrete attempt: `page.goto` rejects after two manifest requests were
observed; null is returned and the handler answers 404. -/
theorem driver_failure_normalized_witness :
    (getDirectLink "abc123" { smoothAttempt twoManifests with gotoOk := false }).outcome =
      Outcome.returned none ∧
    (handler (some "abc123") [] 0 { smoothAttempt twoManifests with gotoOk := false }
        30000).response = some { status := 404, body := Body.error MSG_NOT_FOUND } :=
  ⟨((driver_failure_normalized "abc123"
      { smoothAttempt twoManifests with gotoOk := false }).1
      (Or.inr (Or.inr (Or.inr rfl))) (fun _ => rfl)).1,
    (((driver_failure_normalized "abc123"
      { smoothAttempt twoManifests with gotoOk := false }).1
      (Or.inr (Or.inr (Or.inr rfl))) (fun _ => rfl)).2
      (some "abc123") [] 0 30000 [Effect.cacheHas "abc123"] (by decide)).1⟩

/-! ## Release of the session (C10) -/

/-- Claim C10: when `puppeteer.launch` has resolved, `browser.close` is called exactly once
and it is the last call `getDirectLink` makes, whether the attempt ends with a URL, with
the timeout or with a rejected `newPage`, `setUserAgent` or `goto`; when `launch` rejects,
`close` is not called and `getDirectLink` returns null. -/
theorem close_called_once (videoId : String) (a : Attempt) :
    (a.launchOk = true →
      (getDirectLink videoId a).calls.count Call.close = 1 ∧
      (getDirectLink videoId a).calls.getLast? = some Call.close) ∧
    (a.launchOk = false →
      (getDirectLink videoId a).calls.count Call.close = 0 ∧
      (getDirectLink videoId a).outcome = Outcome.returned none) := by
  constructor
  · intro hl
    have key : ∃ calls, (getDirectLink videoId a).calls = calls ++ [Call.close] ∧
        Call.close ∉ calls := by
      rcases getDirectLink_cases videoId a with ⟨h, _⟩ | ⟨_, _, calls, h0, hn⟩ |
        ⟨h1, h2, h3, h4⟩
      · rw [hl] at h; exact absurd h (by simp)
      · exact ⟨calls, by rw [h0]; rfl, hn⟩
      · exact ⟨_, by rw [getDirectLink_all_resolved videoId a h1 h2 h3 h4]; rfl, by simp⟩
    obtain ⟨calls, hc, hn⟩ := key
    rw [hc]
    constructor
    · rw [List.count_append, List.count_eq_zero.mpr hn]
      rfl
    · simp
  · intro hl
    rw [getDirectLink_launch_failed videoId a hl]
    exact ⟨rfl, rfl⟩

/-- Claim C10 at concrete attempts: one call of `close` after a found URL, after a
timeout and after a rejected `newPage`; none after a rejected `launch`. -/
theorem close_called_once_witness :
    (getDirectLink "abc123" (smoothAttempt oneManifest)).calls.count Call.close = 1 ∧
    (getDirectLink "abc123" (smoothAttempt lateManifest)).calls.count Call.close = 1 ∧
    (getDirectLink "abc123"
      { smoothAttempt oneManifest with newPageOk := false }).calls.count Call.close = 1 ∧
    (getDirectLink "abc123"
      { smoothAttempt oneManifest with launchOk := false }).calls.count Call.close = 0 :=
  ⟨((close_called_once "abc123" (smoothAttempt oneManifest)).1 rfl).1,
    ((close_called_once "abc123" (smoothAttempt lateManifest)).1 rfl).1,
    ((close_called_once "abc123" { smoothAttempt oneManifest with newPageOk := false }).1
      rfl).1,
    ((close_called_once "abc123" { smoothAttempt oneManifest with launchOk := false }).2
      rfl).1⟩

end VideoProxy
